import Mathlib

/-!
Verification of the investment projection engine of the athena-tax-planning
repository.  The engine lives in a single source file: portfolio aggregation
(`calculatePortfolioMetrics`), the closed-form lognormal moment matching for an
annuity stream (`getLognormalDistributionParams`) and for a lump sum
(`getLumpSumDistributionParams`), the shared-shock quantile combination
(`totalQuantilesForYear`), and the year-by-year projection loop
(`calculateInvestmentProjection`).  All arithmetic is modelled over `ℝ`, the
idealised semantics of the source's IEEE doubles; JavaScript division by zero
is modelled by Lean's `x / 0 = 0` convention.  The standard normal quantile
`jStat.normal.inv(p, 0, 1)` is an external library function and is kept
abstract as a parameter `z : ℝ → ℝ`.
-/

namespace Athena

open Finset

/-- Result record of both moment-matching helpers: `{ logMu, logSigma }`. -/
structure LogParams where
  logMu : ℝ
  logSigma : ℝ

/-- Source line `const E = mu === 0 ? C * N : C * (Math.pow(m, N) - 1) / mu;`
(mean of the future value of the ordinary annuity). -/
noncomputable def annE (C : ℝ) (N : ℕ) (mu : ℝ) : ℝ :=
  if mu = 0 then C * N else C * ((1 + mu) ^ N - 1) / mu

/-- Source line `const S = (Math.pow(A, N) - 1) / (A - 1);` with
`m = 1 + mu` and `A = m ** 2 + sigma ** 2`. -/
noncomputable def annS (N : ℕ) (mu sigma : ℝ) : ℝ :=
  (((1 + mu) ^ 2 + sigma ^ 2) ^ N - 1) / (((1 + mu) ^ 2 + sigma ^ 2) - 1)

/-- Source loop `for (let p = 1; p < N; p++) T += Math.pow(m, p) *
((Math.pow(A, N - p) - 1) / (A - 1));`. -/
noncomputable def annT (N : ℕ) (mu sigma : ℝ) : ℝ :=
  ∑ p in Finset.Ico 1 N,
    (1 + mu) ^ p * ((((1 + mu) ^ 2 + sigma ^ 2) ^ (N - p) - 1) /
      (((1 + mu) ^ 2 + sigma ^ 2) - 1))

/-- Source line `const second_moment = C ** 2 * (S + 2 * T);`. -/
noncomputable def annSecondMoment (C : ℝ) (N : ℕ) (mu sigma : ℝ) : ℝ :=
  C ^ 2 * (annS N mu sigma + 2 * annT N mu sigma)

/-- Source lines `let V = second_moment - E ** 2; if (V < 0) V = 0;`. -/
noncomputable def annV (C : ℝ) (N : ℕ) (mu sigma : ℝ) : ℝ :=
  if annSecondMoment C N mu sigma - annE C N mu ^ 2 < 0 then 0
  else annSecondMoment C N mu sigma - annE C N mu ^ 2

/-- Embedding of the source's `getLognormalDistributionParams(C, N, mu, sigma)`:
the `N === 0 || C === 0` guard returns `{ logMu: Math.log(C || 1), logSigma: 0 }`,
otherwise `sigma_w2 = Math.log(1 + V / E ** 2)`,
`logSigma = Math.sqrt(sigma_w2)`, `logMu = Math.log(E) - 0.5 * sigma_w2`. -/
noncomputable def getLognormalDistributionParams (C : ℝ) (N : ℕ) (mu sigma : ℝ) :
    LogParams :=
  if N = 0 ∨ C = 0 then
    { logMu := Real.log (if C = 0 then 1 else C), logSigma := 0 }
  else
    { logMu := Real.log (annE C N mu) -
        0.5 * Real.log (1 + annV C N mu sigma / annE C N mu ^ 2)
      logSigma := Real.sqrt (Real.log (1 + annV C N mu sigma / annE C N mu ^ 2)) }

/-- Embedding of the source's `getLumpSumDistributionParams(L, N, mu, sigma)`:
guards `L === 0` then `N <= 0` (the horizon is a natural number, so `N <= 0`
is `N = 0`), else moment matching with `E = L * Math.pow(m, N)` and
`secondMoment = L ** 2 * Math.pow(A, N)`. -/
noncomputable def getLumpSumDistributionParams (L : ℝ) (N : ℕ) (mu sigma : ℝ) :
    LogParams :=
  if L = 0 then { logMu := Real.log 1, logSigma := 0 }
  else if N = 0 then { logMu := Real.log L, logSigma := 0 }
  else
    { logMu := Real.log (L * (1 + mu) ^ N) -
        0.5 * Real.log (1 +
          (if L ^ 2 * ((1 + mu) ^ 2 + sigma ^ 2) ^ N - (L * (1 + mu) ^ N) ^ 2 < 0
            then 0
            else L ^ 2 * ((1 + mu) ^ 2 + sigma ^ 2) ^ N - (L * (1 + mu) ^ N) ^ 2) /
          (L * (1 + mu) ^ N) ^ 2)
      logSigma := Real.sqrt (Real.log (1 +
          (if L ^ 2 * ((1 + mu) ^ 2 + sigma ^ 2) ^ N - (L * (1 + mu) ^ N) ^ 2 < 0
            then 0
            else L ^ 2 * ((1 + mu) ^ 2 + sigma ^ 2) ^ N - (L * (1 + mu) ^ N) ^ 2) /
          (L * (1 + mu) ^ N) ^ 2)) }

/-- Statement of the annuity moment computation as the specification writes it:
`E = C·N` when `mu = 0`, else `C·((1+mu)^N − 1)/mu`; second moment
`C²·(S + 2T)` with `S = (A^N − 1)/(A − 1)` and
`T = Σ_{p=1}^{N−1} (1+mu)^p·(A^{N−p} − 1)/(A − 1)`; variance clamped at 0;
`logSigma = sqrt(ln(1 + V/E²))`, `logMu = ln(E) − 0.5·ln(1 + V/E²)`;
for `N = 0` or `C = 0` it returns `logMu = ln(C or 1)`, `logSigma = 0`. -/
noncomputable def annuitySpecParams (C : ℝ) (N : ℕ) (mu sigma : ℝ) : LogParams :=
  if N = 0 ∨ C = 0 then
    { logMu := Real.log (if C = 0 then 1 else C), logSigma := 0 }
  else
    let A : ℝ := (1 + mu) ^ 2 + sigma ^ 2
    let E : ℝ := if mu = 0 then C * N else C * ((1 + mu) ^ N - 1) / mu
    let S : ℝ := (A ^ N - 1) / (A - 1)
    let T : ℝ := ∑ p in Finset.range (N - 1),
      (1 + mu) ^ (p + 1) * ((A ^ (N - (p + 1)) - 1) / (A - 1))
    let M2 : ℝ := C ^ 2 * (S + 2 * T)
    let V : ℝ := if M2 - E ^ 2 < 0 then 0 else M2 - E ^ 2
    { logMu := Real.log E - 0.5 * Real.log (1 + V / E ^ 2)
      logSigma := Real.sqrt (Real.log (1 + V / E ^ 2)) }

/-- Input parameters of `calculateInvestmentProjection`; numeric inputs are
modelled over `ℝ`, the year count over `ℕ`. -/
structure ProjectionInput where
  investment : ℝ
  age : ℝ
  projectionYears : ℕ
  expectedReturn : ℝ
  volatility : ℝ
  percentile : ℝ
  lumpSumInvestment : ℝ

/-- One row of the projection output (`YearlyData` in the source); the
optional `medianCase` field is always set by the calculation. -/
structure YearlyData where
  year : ℕ
  age : ℝ
  investment : ℝ
  lumpSum : ℝ
  totalAnnualInvestment : ℝ
  totalLumpSumInvestment : ℝ
  totalInvestment : ℝ
  projection : ℝ
  worstCase : ℝ
  bestCase : ℝ
  investmentReturn : ℝ
  medianCase : ℝ

noncomputable instance : Inhabited YearlyData :=
  ⟨⟨0, 0, 0, 0, 0, 0, 0, 0, 0, 0, 0, 0⟩⟩

/-- Summary block of the output. -/
structure ProjectionSummary where
  committedAnnualInvestment : ℝ
  baseCAGR : ℝ
  lastYearInvestmentValue : ℝ

/-- Full output of `calculateInvestmentProjection`. -/
structure ProjectionOutput where
  yearlyData : List YearlyData
  summary : ProjectionSummary

/-- The per-probability value of the source's `totalQuantilesForYear`: its
record `out` maps every probability `p` to
`Math.exp(annLogMu + z * annLogSigma) + Math.exp(lumpLogMu + z * lumpLogSigma)`
with the single shared draw `z = jStat.normal.inv(p, 0, 1)`; the external
jStat quantile is the abstract parameter `z`. -/
noncomputable def totalQuantilesForYear (z : ℝ → ℝ)
    (annLogMu annLogSigma lumpLogMu lumpLogSigma : ℝ) (p : ℝ) : ℝ :=
  Real.exp (annLogMu + z p * annLogSigma) +
    Real.exp (lumpLogMu + z p * lumpLogSigma)

/-- Source line `const pLo = Math.max(0.0001, percentile / 100);`. -/
noncomputable def pLoOf (P : ProjectionInput) : ℝ :=
  max 0.0001 (P.percentile / 100)

/-- Source line `const pHi = Math.min(0.9999, 1 - pLo);`. -/
noncomputable def pHiOf (P : ProjectionInput) : ℝ :=
  min 0.9999 (1 - pLoOf P)

/-- Source `Math.min(...bandsP)` over `bandsP = [pLo, 0.25, 0.5, 0.75, pHi]`. -/
noncomputable def minPOf (P : ProjectionInput) : ℝ :=
  min (pLoOf P) (min 0.25 (min 0.5 (min 0.75 (pHiOf P))))

/-- Source `Math.max(...bandsP)` over `bandsP = [pLo, 0.25, 0.5, 0.75, pHi]`. -/
noncomputable def maxPOf (P : ProjectionInput) : ℝ :=
  max (pLoOf P) (max 0.25 (max 0.5 (max 0.75 (pHiOf P))))

/-- The combined quantile the loop body evaluates for a given year: annuity
parameters at horizon `year`, lump-sum parameters at horizon
`Math.max(0, year - 1)` (truncated subtraction on `ℕ` is already clamped),
combined by `totalQuantilesForYear`. -/
noncomputable def bandsAt (P : ProjectionInput) (z : ℝ → ℝ) (year : ℕ)
    (p : ℝ) : ℝ :=
  totalQuantilesForYear z
    (getLognormalDistributionParams P.investment year P.expectedReturn P.volatility).logMu
    (getLognormalDistributionParams P.investment year P.expectedReturn P.volatility).logSigma
    (getLumpSumDistributionParams P.lumpSumInvestment (year - 1) P.expectedReturn P.volatility).logMu
    (getLumpSumDistributionParams P.lumpSumInvestment (year - 1) P.expectedReturn P.volatility).logSigma
    p

/-- Mutable state of the source's projection loop: the two cumulative
contribution counters and the `results` array. -/
structure LoopState where
  cumulativeAnnualInvestment : ℝ
  cumulativeLumpSumInvestment : ℝ
  results : List YearlyData

/-- One iteration of the source's `for (let year = 1; year <= projectionYears;
year++)` loop: the year-1 branch seeds the deterministic value with
`lumpSumThisYear + investment`, later years compound
`results[year - 2].projection`; the band fields always come from the
shared-shock quantiles, `worstCase` clamped at 0, and
`totalReturn = projectionValue - totalContributed`. -/
noncomputable def stepYear (P : ProjectionInput) (z : ℝ → ℝ) (st : LoopState)
    (year : ℕ) : LoopState :=
  let lumpSumThisYear := if year = 1 then P.lumpSumInvestment else 0
  let projectionValue :=
    if year = 1 then lumpSumThisYear + P.investment
    else (st.results.getD (year - 2) default).projection * (1 + P.expectedReturn)
      + P.investment
  let cumulativeAnnual := st.cumulativeAnnualInvestment + P.investment
  let cumulativeLump := st.cumulativeLumpSumInvestment + lumpSumThisYear
  let totalContributed := cumulativeAnnual + cumulativeLump
  let worst := bandsAt P z year (minPOf P)
  let best := bandsAt P z year (maxPOf P)
  let median := bandsAt P z year 0.5
  { cumulativeAnnualInvestment := cumulativeAnnual
    cumulativeLumpSumInvestment := cumulativeLump
    results := st.results ++ [{
      year := year
      age := P.age + year - 1
      investment := P.investment
      lumpSum := lumpSumThisYear
      totalAnnualInvestment := cumulativeAnnual
      totalLumpSumInvestment := cumulativeLump
      totalInvestment := totalContributed
      projection := projectionValue
      worstCase := if worst < 0 then 0 else worst
      bestCase := best
      investmentReturn := projectionValue - totalContributed
      medianCase := median }] }

/-- Running the loop for the first `k` years, starting from the empty state. -/
noncomputable def runYears (P : ProjectionInput) (z : ℝ → ℝ) : ℕ → LoopState
  | 0 => ⟨0, 0, []⟩
  | k + 1 => stepYear P z (runYears P z k) (k + 1)

/-- Embedding of `calculateInvestmentProjection`: run the loop over all years;
the `results.length === 0` branch returns an empty output with
`lastYearInvestmentValue: 0` and `baseCAGR: 0`, otherwise the summary reads
the last row. -/
noncomputable def calculateInvestmentProjection (P : ProjectionInput)
    (z : ℝ → ℝ) : ProjectionOutput :=
  if (runYears P z P.projectionYears).results.length = 0 then
    { yearlyData := []
      summary := { committedAnnualInvestment := P.investment, baseCAGR := 0,
                   lastYearInvestmentValue := 0 } }
  else
    { yearlyData := (runYears P z P.projectionYears).results
      summary := { committedAnnualInvestment := P.investment,
                   baseCAGR := P.expectedReturn,
                   lastYearInvestmentValue :=
                     ((runYears P z P.projectionYears).results.getD
                       ((runYears P z P.projectionYears).results.length - 1)
                       default).projection } }

/-- Closed form of the loop's deterministic `projectionValue` recursion:
year 1 is `lumpSumInvestment + investment`, later years compound the previous
value and add the annual contribution. -/
noncomputable def projectionValueAt (P : ProjectionInput) : ℕ → ℝ
  | 0 => 0
  | 1 => P.lumpSumInvestment + P.investment
  | k + 2 => projectionValueAt P (k + 1) * (1 + P.expectedReturn) + P.investment

/-- Closed form of the row the loop appends for a given `year ≥ 1`. -/
noncomputable def recordAt (P : ProjectionInput) (z : ℝ → ℝ) (year : ℕ) :
    YearlyData :=
  { year := year
    age := P.age + year - 1
    investment := P.investment
    lumpSum := if year = 1 then P.lumpSumInvestment else 0
    totalAnnualInvestment := year * P.investment
    totalLumpSumInvestment := P.lumpSumInvestment
    totalInvestment := year * P.investment + P.lumpSumInvestment
    projection := projectionValueAt P year
    worstCase := if bandsAt P z year (minPOf P) < 0 then 0
      else bandsAt P z year (minPOf P)
    bestCase := bandsAt P z year (maxPOf P)
    investmentReturn := projectionValueAt P year -
      (year * P.investment + P.lumpSumInvestment)
    medianCase := bandsAt P z year 0.5 }

lemma getD_map_range {α : Type} [Inhabited α] (f : ℕ → α) (k i : ℕ)
    (h : i < k) : (((List.range k).map f).getD i default) = f i := by
  rw [List.getD_eq_getElem ((List.range k).map f) default (by simpa using h)]
  simp

/-- The loop invariant: after `k` iterations the counters hold the cumulative
contributions and `results` holds the closed-form rows for years `1..k`. -/
lemma runYears_spec (P : ProjectionInput) (z : ℝ → ℝ) : ∀ k : ℕ,
    (runYears P z k).cumulativeAnnualInvestment = k * P.investment ∧
    (runYears P z k).cumulativeLumpSumInvestment
      = (if k = 0 then 0 else P.lumpSumInvestment) ∧
    (runYears P z k).results
      = (List.range k).map (fun i => recordAt P z (i + 1)) := by
  intro k
  induction k with
  | zero => refine ⟨by simp [runYears], by simp [runYears], by simp [runYears]⟩
  | succ k ih =>
    obtain ⟨ihA, ihL, ihR⟩ := ih
    have hstep : runYears P z (k + 1) = stepYear P z (runYears P z k) (k + 1) := rfl
    have hproj : (if k + 1 = 1 then (if k + 1 = 1 then P.lumpSumInvestment else 0)
          + P.investment
        else (((List.range k).map (fun i => recordAt P z (i + 1))).getD
            (k + 1 - 2) default).projection
          * (1 + P.expectedReturn) + P.investment)
        = projectionValueAt P (k + 1) := by
      cases k with
      | zero => simp [projectionValueAt]
      | succ j =>
        rw [if_neg (by omega)]
        have hidx : j + 1 + 1 - 2 = j := by omega
        rw [hidx, getD_map_range _ _ _ (by omega : j < j + 1)]
        simp [recordAt, projectionValueAt]
    have hA : (runYears P z k).cumulativeAnnualInvestment + P.investment
        = ((k + 1 : ℕ) : ℝ) * P.investment := by
      rw [ihA]; push_cast; ring
    have hL : (runYears P z k).cumulativeLumpSumInvestment
          + (if k + 1 = 1 then P.lumpSumInvestment else 0)
        = P.lumpSumInvestment := by
      rw [ihL]
      cases k with
      | zero => simp
      | succ j => rw [if_neg (by omega), if_neg (by omega)]; ring
    refine ⟨?_, ?_, ?_⟩
    · rw [hstep]
      show (runYears P z k).cumulativeAnnualInvestment + P.investment = _
      rw [hA]
    · rw [hstep]
      show (runYears P z k).cumulativeLumpSumInvestment
          + (if k + 1 = 1 then P.lumpSumInvestment else 0) = _
      rw [hL, if_neg (Nat.succ_ne_zero k)]
    · rw [hstep]
      show (runYears P z k).results ++ [_] = _
      rw [List.range_succ, List.map_append, ihR, List.map_singleton]
      congr 1
      rw [recordAt, hproj, hA, hL]

/-- The output rows are exactly the closed-form rows for years
`1..projectionYears`, whatever the horizon. -/
lemma yearlyData_eq (P : ProjectionInput) (z : ℝ → ℝ) :
    (calculateInvestmentProjection P z).yearlyData
      = (List.range P.projectionYears).map (fun i => recordAt P z (i + 1)) := by
  unfold calculateInvestmentProjection
  split_ifs with h
  · have hres := (runYears_spec P z P.projectionYears).2.2
    rw [hres] at h
    simp only [List.length_map, List.length_range] at h
    rw [h]
    simp
  · exact (runYears_spec P z P.projectionYears).2.2

/-- Row extraction: the `i`-th output row is the closed-form row of year
`i + 1`. -/
lemma yearlyData_getD (P : ProjectionInput) (z : ℝ → ℝ) (i : ℕ)
    (h : i < P.projectionYears) :
    (calculateInvestmentProjection P z).yearlyData.getD i default
      = recordAt P z (i + 1) := by
  rw [yearlyData_eq]
  exact getD_map_range _ _ _ h

/-- A placeholder for the external standard normal quantile in concrete
witnesses; the statements it is used in do not depend on the quantile's
values (both `logSigma` legs vanish there, or the fields are
quantile-independent). -/
noncomputable def z0 : ℝ → ℝ := fun _ => 0

/-- Concrete input with a zero horizon. -/
noncomputable def Phor0 : ProjectionInput :=
  { investment := 300000, age := 35, projectionYears := 0, expectedReturn := 0.06,
    volatility := 0.1, percentile := 10, lumpSumInvestment := 1000000 }

/-- Concrete input with positive contributions and a two-year horizon. -/
noncomputable def Pgen : ProjectionInput :=
  { investment := 1, age := 35, projectionYears := 2, expectedReturn := 0,
    volatility := 1, percentile := 10, lumpSumInvestment := 2 }

/-- C4: the output has exactly `projectionYears` rows, the `i`-th row carries
year `i + 1`, and a zero horizon yields an empty sequence with
`lastYearInvestmentValue = 0`. -/
theorem projection_length_and_years (P : ProjectionInput) (z : ℝ → ℝ) :
    (calculateInvestmentProjection P z).yearlyData.length = P.projectionYears ∧
    ((calculateInvestmentProjection P z).yearlyData.map YearlyData.year
      = (List.range P.projectionYears).map (fun i => i + 1)) ∧
    (P.projectionYears = 0 →
      (calculateInvestmentProjection P z).yearlyData = [] ∧
      (calculateInvestmentProjection P z).summary.lastYearInvestmentValue = 0) := by
  refine ⟨?_, ?_, fun h => ⟨?_, ?_⟩⟩
  · rw [yearlyData_eq]; simp
  · rw [yearlyData_eq, List.map_map]
    exact List.map_congr_left fun i _ => rfl
  · rw [yearlyData_eq, h]; simp
  · unfold calculateInvestmentProjection
    have hlen : (runYears P z P.projectionYears).results.length = 0 := by
      rw [(runYears_spec P z P.projectionYears).2.2, h]; simp
    rw [if_pos hlen]

/-- C4 witness: the zero-horizon clause at the concrete input `Phor0`. -/
theorem projection_length_and_years_witness :
    Phor0.projectionYears = 0 ∧
    (calculateInvestmentProjection Phor0 z0).yearlyData = [] ∧
    (calculateInvestmentProjection Phor0 z0).summary.lastYearInvestmentValue = 0 :=
  ⟨rfl, ((projection_length_and_years Phor0 z0).2.2 rfl).1,
    ((projection_length_and_years Phor0 z0).2.2 rfl).2⟩

/-- C3: year 1's deterministic projection is
`lumpSumInvestment + annualInvestment`; each later year compounds the
previous projection by `1 + expectedReturn` and adds the annual
contribution; and every year's `investmentReturn` is that year's projection
minus that year's cumulative total contributions. -/
theorem projection_deterministic_path (P : ProjectionInput) (z : ℝ → ℝ)
    (h1 : 1 ≤ P.projectionYears) :
    ((calculateInvestmentProjection P z).yearlyData.getD 0 default).projection
      = P.lumpSumInvestment + P.investment ∧
    (∀ k : ℕ, 2 ≤ k → k ≤ P.projectionYears →
      ((calculateInvestmentProjection P z).yearlyData.getD (k - 1) default).projection
        = ((calculateInvestmentProjection P z).yearlyData.getD (k - 2) default).projection
          * (1 + P.expectedReturn) + P.investment) ∧
    (∀ k : ℕ, 1 ≤ k → k ≤ P.projectionYears →
      ((calculateInvestmentProjection P z).yearlyData.getD (k - 1) default).investmentReturn
        = ((calculateInvestmentProjection P z).yearlyData.getD (k - 1) default).projection
          - ((calculateInvestmentProjection P z).yearlyData.getD (k - 1) default).totalInvestment) := by
  refine ⟨?_, ?_, ?_⟩
  · rw [yearlyData_getD P z 0 (by omega)]
    rfl
  · intro k h2 hk
    rw [yearlyData_getD P z (k - 1) (by omega), yearlyData_getD P z (k - 2) (by omega)]
    have e1 : k - 1 + 1 = k := by omega
    have e2 : k - 2 + 1 = k - 1 := by omega
    rw [e1, e2]
    show projectionValueAt P k = projectionValueAt P (k - 1) * (1 + P.expectedReturn)
      + P.investment
    obtain ⟨j, rfl⟩ : ∃ j, k = j + 2 := ⟨k - 2, by omega⟩
    have e3 : j + 2 - 1 = j + 1 := by omega
    rw [e3]
    rfl
  · intro k h2 hk
    rw [yearlyData_getD P z (k - 1) (by omega)]
    rfl

/-- C3 witness: the recursion clauses at the concrete input `Pgen` for
year 2. -/
theorem projection_deterministic_path_witness :
    1 ≤ Pgen.projectionYears ∧ 2 ≤ Pgen.projectionYears ∧
    ((calculateInvestmentProjection Pgen z0).yearlyData.getD (2 - 1) default).projection
      = ((calculateInvestmentProjection Pgen z0).yearlyData.getD (2 - 2) default).projection
        * (1 + Pgen.expectedReturn) + Pgen.investment :=
  ⟨by norm_num [Pgen], by norm_num [Pgen],
    (projection_deterministic_path Pgen z0 (by norm_num [Pgen])).2.1 2 (by norm_num)
      (by norm_num [Pgen])⟩

/-- C2: every year's band fields are the shared-shock combined quantiles
`exp(annLogMu + z(p)·annLogSigma) + exp(lumpLogMu + z(p)·lumpLogSigma)` with
annuity parameters at horizon `year = i + 1` and lump-sum parameters at
horizon `year − 1 = i`; the probability set is
`{pLow, 0.25, 0.5, 0.75, pHigh}` with `pLow = max(0.0001, tailPercentile/100)`
and `pHigh = min(0.9999, 1 − pLow)`; the pre-clamp worst case is the combined
quantile at the set's minimum, the best case at its maximum, the median case
at 0.5. -/
theorem bands_shared_shock (P : ProjectionInput) (z : ℝ → ℝ) (i : ℕ)
    (hi : i < P.projectionYears) :
    (∀ a b c d p, totalQuantilesForYear z a b c d p
        = Real.exp (a + z p * b) + Real.exp (c + z p * d)) ∧
    pLoOf P = max 0.0001 (P.percentile / 100) ∧
    pHiOf P = min 0.9999 (1 - pLoOf P) ∧
    minPOf P = min (pLoOf P) (min 0.25 (min 0.5 (min 0.75 (pHiOf P)))) ∧
    maxPOf P = max (pLoOf P) (max 0.25 (max 0.5 (max 0.75 (pHiOf P)))) ∧
    ((calculateInvestmentProjection P z).yearlyData.getD i default).medianCase
      = totalQuantilesForYear z
          (getLognormalDistributionParams P.investment (i + 1) P.expectedReturn P.volatility).logMu
          (getLognormalDistributionParams P.investment (i + 1) P.expectedReturn P.volatility).logSigma
          (getLumpSumDistributionParams P.lumpSumInvestment i P.expectedReturn P.volatility).logMu
          (getLumpSumDistributionParams P.lumpSumInvestment i P.expectedReturn P.volatility).logSigma
          0.5 ∧
    ((calculateInvestmentProjection P z).yearlyData.getD i default).bestCase
      = totalQuantilesForYear z
          (getLognormalDistributionParams P.investment (i + 1) P.expectedReturn P.volatility).logMu
          (getLognormalDistributionParams P.investment (i + 1) P.expectedReturn P.volatility).logSigma
          (getLumpSumDistributionParams P.lumpSumInvestment i P.expectedReturn P.volatility).logMu
          (getLumpSumDistributionParams P.lumpSumInvestment i P.expectedReturn P.volatility).logSigma
          (maxPOf P) ∧
    ((calculateInvestmentProjection P z).yearlyData.getD i default).worstCase
      = (if totalQuantilesForYear z
          (getLognormalDistributionParams P.investment (i + 1) P.expectedReturn P.volatility).logMu
          (getLognormalDistributionParams P.investment (i + 1) P.expectedReturn P.volatility).logSigma
          (getLumpSumDistributionParams P.lumpSumInvestment i P.expectedReturn P.volatility).logMu
          (getLumpSumDistributionParams P.lumpSumInvestment i P.expectedReturn P.volatility).logSigma
          (minPOf P) < 0 then 0
        else totalQuantilesForYear z
          (getLognormalDistributionParams P.investment (i + 1) P.expectedReturn P.volatility).logMu
          (getLognormalDistributionParams P.investment (i + 1) P.expectedReturn P.volatility).logSigma
          (getLumpSumDistributionParams P.lumpSumInvestment i P.expectedReturn P.volatility).logMu
          (getLumpSumDistributionParams P.lumpSumInvestment i P.expectedReturn P.volatility).logSigma
          (minPOf P)) := by
  refine ⟨fun a b c d p => rfl, rfl, rfl, rfl, rfl, ?_, ?_, ?_⟩ <;>
    rw [yearlyData_getD P z i hi] <;> rfl

/-- C2 witness: the band formulas at the concrete input `Pgen`, year 1. -/
theorem bands_shared_shock_witness :
    0 < Pgen.projectionYears ∧
    ((calculateInvestmentProjection Pgen z0).yearlyData.getD 0 default).medianCase
      = totalQuantilesForYear z0
          (getLognormalDistributionParams Pgen.investment 1 Pgen.expectedReturn Pgen.volatility).logMu
          (getLognormalDistributionParams Pgen.investment 1 Pgen.expectedReturn Pgen.volatility).logSigma
          (getLumpSumDistributionParams Pgen.lumpSumInvestment 0 Pgen.expectedReturn Pgen.volatility).logMu
          (getLumpSumDistributionParams Pgen.lumpSumInvestment 0 Pgen.expectedReturn Pgen.volatility).logSigma
          0.5 :=
  ⟨by norm_num [Pgen],
    (bands_shared_shock Pgen z0 0 (by norm_num [Pgen])).2.2.2.2.2.1⟩

lemma Usum_succ (m : ℝ) (N : ℕ) :
    (∑ p in Finset.Ico 1 (N + 1), m ^ p * ∑ i in Finset.range (N + 1 - p), (m ^ 2) ^ i)
      = (∑ p in Finset.Ico 1 N, m ^ p * ∑ i in Finset.range (N - p), (m ^ 2) ^ i)
        + m ^ N * ∑ j in Finset.range N, m ^ j := by
  cases N with
  | zero => simp
  | succ n =>
    rw [Finset.sum_Ico_succ_top (by omega : 1 ≤ n + 1)]
    have htop : (n + 1 + 1 - (n + 1)) = 1 := by omega
    rw [htop]
    have hsplit : ∀ p ∈ Finset.Ico 1 (n + 1),
        m ^ p * ∑ i in Finset.range (n + 1 + 1 - p), (m ^ 2) ^ i
          = m ^ p * ∑ i in Finset.range (n + 1 - p), (m ^ 2) ^ i
            + m ^ p * (m ^ 2) ^ (n + 1 - p) := by
      intro p hp
      rw [Finset.mem_Ico] at hp
      have hidx : n + 1 + 1 - p = (n + 1 - p) + 1 := by omega
      rw [hidx, Finset.sum_range_succ, mul_add]
    rw [Finset.sum_congr rfl hsplit, Finset.sum_add_distrib]
    have hterm : ∀ k ∈ Finset.range n,
        m ^ (1 + k) * (m ^ 2) ^ (n + 1 - (1 + k)) = m ^ (n + 2 + (n - 1 - k)) := by
      intro k hk
      rw [Finset.mem_range] at hk
      rw [← pow_mul, ← pow_add]
      congr 1
      omega
    have hdiag : (∑ p in Finset.Ico 1 (n + 1), m ^ p * (m ^ 2) ^ (n + 1 - p))
        = ∑ i in Finset.range n, m ^ (n + 2 + i) := by
      rw [Finset.sum_Ico_eq_sum_range]
      have hb : n + 1 - 1 = n := by omega
      rw [hb]
      rw [Finset.sum_congr rfl hterm]
      exact Finset.sum_range_reflect (fun i => m ^ (n + 2 + i)) n
    rw [hdiag]
    rw [Finset.range_one, Finset.sum_singleton, pow_zero, mul_one]
    rw [Finset.mul_sum, Finset.sum_range_succ' (fun j => m ^ (n + 1) * m ^ j) n]
    simp only [← pow_add, pow_zero, mul_one]
    have hsum : (∑ i in Finset.range n, m ^ (n + 2 + i))
        = ∑ i in Finset.range n, m ^ (n + 1 + (i + 1)) :=
      Finset.sum_congr rfl fun i _ => by congr 1; omega
    rw [hsum]
    ring

/-- Square of a geometric sum: diagonal plus twice the upper triangle, in the
index arrangement of the source's `S` and `T` terms. -/
lemma sq_geom_sum (m : ℝ) (N : ℕ) :
    (∑ j in Finset.range N, m ^ j) ^ 2
      = (∑ i in Finset.range N, (m ^ 2) ^ i)
        + 2 * ∑ p in Finset.Ico 1 N, m ^ p * ∑ i in Finset.range (N - p), (m ^ 2) ^ i := by
  induction N with
  | zero => simp
  | succ n ih =>
    rw [Finset.sum_range_succ (fun j => m ^ j) n, add_sq, ih, Usum_succ,
      Finset.sum_range_succ (fun i => (m ^ 2) ^ i) n, pow_right_comm]
    ring

/-- With zero volatility the annuity leg's clamped variance vanishes: either
`A = 1` makes the divisions `0/0 = 0` so the second moment is `0` and the
clamp fires, or `A ≠ 1` resolves the divisions into geometric sums and the
second moment equals `E²` exactly. -/
lemma annV_sigma_zero (C : ℝ) (N : ℕ) (mu : ℝ) : annV C N mu 0 = 0 := by
  have hV0 : annSecondMoment C N mu 0 - annE C N mu ^ 2 ≤ 0 := by
    by_cases hA : (1 + mu) ^ 2 = 1
    · have hS : annS N mu 0 = 0 := by
        unfold annS
        norm_num [hA]
      have hT : annT N mu 0 = 0 := by
        unfold annT
        apply Finset.sum_eq_zero
        intro p hp
        norm_num [hA]
      have hM : annSecondMoment C N mu 0 = 0 := by
        unfold annSecondMoment
        rw [hS, hT]
        ring
      rw [hM]
      nlinarith [sq_nonneg (annE C N mu)]
    · have hm1 : (1 + mu) ≠ 1 := by
        intro h
        exact hA (by rw [h]; norm_num)
      have hmu : mu ≠ 0 := by
        intro h
        exact hm1 (by rw [h]; norm_num)
      have h0 : ((1 + mu) ^ 2 + (0:ℝ) ^ 2) = (1 + mu) ^ 2 := by norm_num
      have hS : annS N mu 0 = ∑ i in Finset.range N, ((1 + mu) ^ 2) ^ i := by
        unfold annS
        rw [h0]
        exact (geom_sum_eq hA N).symm
      have hT : annT N mu 0
          = ∑ p in Finset.Ico 1 N, (1 + mu) ^ p *
              ∑ i in Finset.range (N - p), ((1 + mu) ^ 2) ^ i := by
        unfold annT
        refine Finset.sum_congr rfl fun p _ => ?_
        rw [h0, ← geom_sum_eq hA]
      have hE : annE C N mu = C * ∑ j in Finset.range N, (1 + mu) ^ j := by
        unfold annE
        rw [if_neg hmu, geom_sum_eq hm1]
        have hd : (1 + mu) - 1 = mu := by ring
        rw [hd, mul_div_assoc]
      have : annSecondMoment C N mu 0 - annE C N mu ^ 2 = 0 := by
        unfold annSecondMoment
        rw [hS, hT, hE, ← sq_geom_sum]
        ring
      linarith
  unfold annV
  split_ifs with hlt
  · rfl
  · linarith

/-- With zero volatility the annuity leg's matched lognormal has zero
log-scale. -/
lemma ann_logSigma_sigma_zero (C : ℝ) (N : ℕ) (mu : ℝ) :
    (getLognormalDistributionParams C N mu 0).logSigma = 0 := by
  unfold getLognormalDistributionParams
  split_ifs with h h2
  · rfl
  · rfl
  · show Real.sqrt (Real.log (1 + annV C N mu 0 / annE C N mu ^ 2)) = 0
    rw [annV_sigma_zero, zero_div, add_zero, Real.log_one, Real.sqrt_zero]

/-- With zero volatility the lump-sum leg's matched lognormal has zero
log-scale: the second moment is exactly `E²`. -/
lemma lump_logSigma_sigma_zero (L : ℝ) (N : ℕ) (mu : ℝ) :
    (getLumpSumDistributionParams L N mu 0).logSigma = 0 := by
  unfold getLumpSumDistributionParams
  split_ifs with h1 h2 h3
  · rfl
  · rfl
  · simp
  · have hz : L ^ 2 * ((1 + mu) ^ 2 + (0:ℝ) ^ 2) ^ N - (L * (1 + mu) ^ N) ^ 2 = 0 := by
      have hA : ((1 + mu) ^ 2 + (0:ℝ) ^ 2) = (1 + mu) ^ 2 := by norm_num
      rw [hA, ← pow_right_comm]
      ring
    rw [hz]
    simp

lemma ann_logSigma_nonneg (C : ℝ) (N : ℕ) (mu sigma : ℝ) :
    0 ≤ (getLognormalDistributionParams C N mu sigma).logSigma := by
  unfold getLognormalDistributionParams
  split_ifs <;> first | exact le_refl 0 | exact Real.sqrt_nonneg _

lemma lump_logSigma_nonneg (L : ℝ) (N : ℕ) (mu sigma : ℝ) :
    0 ≤ (getLumpSumDistributionParams L N mu sigma).logSigma := by
  unfold getLumpSumDistributionParams
  split_ifs <;> first | exact le_refl 0 | exact Real.sqrt_nonneg _

lemma bandsAt_pos (P : ProjectionInput) (z : ℝ → ℝ) (year : ℕ) (p : ℝ) :
    0 < bandsAt P z year p := by
  unfold bandsAt totalQuantilesForYear
  positivity

/-- The clamp `worstCase = max(0, worst)` never fires: the combined quantile
is a sum of two exponentials, hence positive. -/
lemma recordAt_worstCase (P : ProjectionInput) (z : ℝ → ℝ) (year : ℕ) :
    (recordAt P z year).worstCase = bandsAt P z year (minPOf P) := by
  show (if bandsAt P z year (minPOf P) < 0 then 0 else bandsAt P z year (minPOf P)) = _
  rw [if_neg (not_lt.mpr (bandsAt_pos P z year (minPOf P)).le)]

lemma bandsAt_mono (P : ProjectionInput) (z : ℝ → ℝ) (year : ℕ)
    (hz : Monotone z) {p q : ℝ} (hpq : p ≤ q) :
    bandsAt P z year p ≤ bandsAt P z year q := by
  unfold bandsAt totalQuantilesForYear
  have h1 := ann_logSigma_nonneg P.investment year P.expectedReturn P.volatility
  have h2 := lump_logSigma_nonneg P.lumpSumInvestment (year - 1) P.expectedReturn P.volatility
  have hzz := hz hpq
  exact add_le_add
    (Real.exp_le_exp.mpr (add_le_add_left (mul_le_mul_of_nonneg_right hzz h1) _))
    (Real.exp_le_exp.mpr (add_le_add_left (mul_le_mul_of_nonneg_right hzz h2) _))

lemma minPOf_le_half (P : ProjectionInput) : minPOf P ≤ 0.5 :=
  le_trans (min_le_right _ _) (le_trans (min_le_right _ _) (min_le_left _ _))

lemma half_le_maxPOf (P : ProjectionInput) : (0.5:ℝ) ≤ maxPOf P :=
  le_trans (le_trans (le_max_left _ _) (le_max_right _ _)) (le_max_right _ _)

/-- The `C === 0` guard of the annuity helper: `logMu = ln(0 || 1) = 0`. -/
lemma ann_params_C_zero (N : ℕ) (mu sigma : ℝ) :
    getLognormalDistributionParams 0 N mu sigma = ⟨0, 0⟩ := by
  unfold getLognormalDistributionParams
  rw [if_pos (Or.inr rfl), if_pos rfl, Real.log_one]

/-- The `L === 0` guard of the lump-sum helper: `logMu = ln 1 = 0`. -/
lemma lump_params_L_zero (N : ℕ) (mu sigma : ℝ) :
    getLumpSumDistributionParams 0 N mu sigma = ⟨0, 0⟩ := by
  unfold getLumpSumDistributionParams
  rw [if_pos rfl, Real.log_one]

/-- The `N <= 0` guard of the lump-sum helper for a nonzero amount. -/
lemma lump_params_N_zero (L : ℝ) (mu sigma : ℝ) (hL : L ≠ 0) :
    getLumpSumDistributionParams L 0 mu sigma = ⟨Real.log L, 0⟩ := by
  unfold getLumpSumDistributionParams
  rw [if_neg hL, if_pos rfl]

/-- At horizon 1 the annuity of a nonzero contribution is deterministic:
`E = C`, `S` contributes `C²` (or the clamp fires when `A = 1`), so the
matched parameters are `(ln C, 0)`. -/
lemma ann_params_year_one (C : ℝ) (mu sigma : ℝ) (hC : C ≠ 0) :
    getLognormalDistributionParams C 1 mu sigma = ⟨Real.log C, 0⟩ := by
  have hE : annE C 1 mu = C := by
    unfold annE
    split_ifs with h
    · norm_num
    · rw [pow_one]
      field_simp
  have hV : annV C 1 mu sigma = 0 := by
    have hCsq : 0 < C ^ 2 :=
      lt_of_le_of_ne (sq_nonneg C) (Ne.symm (pow_ne_zero 2 hC))
    have hT : annT 1 mu sigma = 0 := by
      unfold annT
      rw [Finset.Ico_self, Finset.sum_empty]
    by_cases hA : (1 + mu) ^ 2 + sigma ^ 2 = 1
    · have hS : annS 1 mu sigma = 0 := by
        unfold annS
        rw [pow_one, hA]
        norm_num
      have hM : annSecondMoment C 1 mu sigma = 0 := by
        unfold annSecondMoment
        rw [hS, hT]
        ring
      unfold annV
      rw [hM, hE, if_pos (by linarith)]
    · have hS : annS 1 mu sigma = 1 := by
        unfold annS
        rw [pow_one]
        exact div_self (sub_ne_zero.mpr hA)
      have hM : annSecondMoment C 1 mu sigma = C ^ 2 := by
        unfold annSecondMoment
        rw [hS, hT]
        ring
      unfold annV
      rw [hM, hE, if_neg (by linarith)]
      ring
  unfold getLognormalDistributionParams
  rw [if_neg (by simp [hC])]
  rw [hV, hE, zero_div, add_zero, Real.log_one]
  norm_num

/-- The deterministic path is identically zero when both contributions are
zero. -/
lemma projectionValueAt_zero (P : ProjectionInput) (hinv : P.investment = 0)
    (hlump : P.lumpSumInvestment = 0) : ∀ k, projectionValueAt P k = 0 := by
  intro k
  induction k using Nat.strong_induction_on with
  | _ k ih =>
    match k with
    | 0 => rfl
    | 1 =>
      show P.lumpSumInvestment + P.investment = 0
      rw [hinv, hlump]; ring
    | (j + 2) =>
      show projectionValueAt P (j + 1) * (1 + P.expectedReturn) + P.investment = 0
      rw [ih (j + 1) (by omega), hinv]; ring

/-- When the lump sum is zero its leg contributes the constant
`exp(ln 1 + z·0) = 1` to every combined quantile. -/
lemma bandsAt_lump_zero (P : ProjectionInput) (z : ℝ → ℝ) (year : ℕ) (p : ℝ)
    (hlump : P.lumpSumInvestment = 0) :
    bandsAt P z year p
      = Real.exp
          ((getLognormalDistributionParams P.investment year P.expectedReturn P.volatility).logMu
            + z p *
              (getLognormalDistributionParams P.investment year P.expectedReturn P.volatility).logSigma)
        + 1 := by
  unfold bandsAt totalQuantilesForYear
  rw [hlump, lump_params_L_zero]
  norm_num

/-- When the annual contribution is zero the annuity leg contributes the
constant `exp(ln(0 || 1) + z·0) = 1` to every combined quantile. -/
lemma bandsAt_inv_zero (P : ProjectionInput) (z : ℝ → ℝ) (year : ℕ) (p : ℝ)
    (hinv : P.investment = 0) :
    bandsAt P z year p
      = 1 + Real.exp
          ((getLumpSumDistributionParams P.lumpSumInvestment (year - 1) P.expectedReturn P.volatility).logMu
            + z p *
              (getLumpSumDistributionParams P.lumpSumInvestment (year - 1) P.expectedReturn P.volatility).logSigma) := by
  unfold bandsAt totalQuantilesForYear
  rw [hinv, ann_params_C_zero]
  norm_num

/-- With both contributions zero every combined quantile is exactly 2. -/
lemma bandsAt_zero_contrib (P : ProjectionInput) (z : ℝ → ℝ) (year : ℕ) (p : ℝ)
    (hinv : P.investment = 0) (hlump : P.lumpSumInvestment = 0) :
    bandsAt P z year p = 2 := by
  rw [bandsAt_lump_zero P z year p hlump, hinv, ann_params_C_zero]
  norm_num

/-- Concrete input with both contributions zero and a one-year horizon. -/
noncomputable def Pzc : ProjectionInput :=
  { investment := 0, age := 35, projectionYears := 1, expectedReturn := 0.06,
    volatility := 0.1, percentile := 10, lumpSumInvestment := 0 }

/-- Concrete input: unit annual contribution, no lump sum, zero mean return,
unit volatility, one-year horizon. -/
noncomputable def Pc9 : ProjectionInput :=
  { investment := 1, age := 35, projectionYears := 1, expectedReturn := 0,
    volatility := 1, percentile := 10, lumpSumInvestment := 0 }

/-- Concrete input with zero volatility. -/
noncomputable def Pvol0 : ProjectionInput :=
  { investment := 300000, age := 35, projectionYears := 1, expectedReturn := 0.06,
    volatility := 0, percentile := 10, lumpSumInvestment := 1000000 }

/-- C7: with zero volatility every year's `worstCase`, `bestCase` and
`medianCase` coincide: both legs' matched log-scales vanish, so all evaluated
quantiles are equal. -/
theorem zero_volatility_bands (P : ProjectionInput) (z : ℝ → ℝ)
    (hv : P.volatility = 0) (i : ℕ) (hi : i < P.projectionYears) :
    ((calculateInvestmentProjection P z).yearlyData.getD i default).worstCase
      = ((calculateInvestmentProjection P z).yearlyData.getD i default).medianCase ∧
    ((calculateInvestmentProjection P z).yearlyData.getD i default).bestCase
      = ((calculateInvestmentProjection P z).yearlyData.getD i default).medianCase := by
  rw [yearlyData_getD P z i hi]
  have hband : ∀ p q : ℝ, bandsAt P z (i + 1) p = bandsAt P z (i + 1) q := by
    intro p q
    unfold bandsAt totalQuantilesForYear
    rw [hv, ann_logSigma_sigma_zero, lump_logSigma_sigma_zero]
    simp
  refine ⟨?_, ?_⟩
  · rw [recordAt_worstCase]
    exact hband _ _
  · exact hband _ _

/-- C7 witness: the coincidence of the three bands at the concrete
zero-volatility input `Pvol0`, year 1. -/
theorem zero_volatility_bands_witness :
    Pvol0.volatility = 0 ∧ 0 < Pvol0.projectionYears ∧
    (((calculateInvestmentProjection Pvol0 z0).yearlyData.getD 0 default).worstCase
      = ((calculateInvestmentProjection Pvol0 z0).yearlyData.getD 0 default).medianCase ∧
     ((calculateInvestmentProjection Pvol0 z0).yearlyData.getD 0 default).bestCase
      = ((calculateInvestmentProjection Pvol0 z0).yearlyData.getD 0 default).medianCase) :=
  ⟨rfl, by norm_num [Pvol0], zero_volatility_bands Pvol0 z0 rfl 0 (by norm_num [Pvol0])⟩

/-- C6 counterexample: with both contributions zero, year 1's `worstCase` is 2
(each degenerate leg contributes the constant 1) while the `projection` field
is 0, so `worstCase ≤ medianProjection` fails. -/
theorem bands_ordering_counterexample :
    ((calculateInvestmentProjection Pzc z0).yearlyData.getD 0 default).worstCase = 2 ∧
    ((calculateInvestmentProjection Pzc z0).yearlyData.getD 0 default).projection = 0 ∧
    ¬ ((calculateInvestmentProjection Pzc z0).yearlyData.getD 0 default).worstCase
      ≤ ((calculateInvestmentProjection Pzc z0).yearlyData.getD 0 default).projection := by
  have hw : ((calculateInvestmentProjection Pzc z0).yearlyData.getD 0 default).worstCase = 2 := by
    rw [yearlyData_getD Pzc z0 0 (by norm_num [Pzc]), recordAt_worstCase]
    exact bandsAt_zero_contrib Pzc z0 1 (minPOf Pzc) rfl rfl
  have hp : ((calculateInvestmentProjection Pzc z0).yearlyData.getD 0 default).projection = 0 := by
    rw [yearlyData_getD Pzc z0 0 (by norm_num [Pzc])]
    exact projectionValueAt_zero Pzc rfl rfl 1
  exact ⟨hw, hp, by rw [hw, hp]; norm_num⟩

/-- C6 (amended): for a monotone quantile function, every year satisfies
`0 ≤ worstCase ≤ medianCase ≤ bestCase`, with the shared-shock `medianCase`
in place of the deterministic `projection` field. -/
theorem bands_ordering (P : ProjectionInput) (z : ℝ → ℝ) (hz : Monotone z)
    (i : ℕ) (hi : i < P.projectionYears) :
    0 ≤ ((calculateInvestmentProjection P z).yearlyData.getD i default).worstCase ∧
    ((calculateInvestmentProjection P z).yearlyData.getD i default).worstCase
      ≤ ((calculateInvestmentProjection P z).yearlyData.getD i default).medianCase ∧
    ((calculateInvestmentProjection P z).yearlyData.getD i default).medianCase
      ≤ ((calculateInvestmentProjection P z).yearlyData.getD i default).bestCase := by
  rw [yearlyData_getD P z i hi]
  refine ⟨?_, ?_, ?_⟩
  · rw [recordAt_worstCase]
    exact (bandsAt_pos P z (i + 1) (minPOf P)).le
  · rw [recordAt_worstCase]
    exact bandsAt_mono P z (i + 1) hz (minPOf_le_half P)
  · exact bandsAt_mono P z (i + 1) hz (half_le_maxPOf P)

/-- C6 witness: the amended ordering at the concrete input `Pgen` with the
constant (hence monotone) quantile stand-in, year 1. -/
theorem bands_ordering_witness :
    Monotone z0 ∧ 0 < Pgen.projectionYears ∧
    (0 ≤ ((calculateInvestmentProjection Pgen z0).yearlyData.getD 0 default).worstCase ∧
    ((calculateInvestmentProjection Pgen z0).yearlyData.getD 0 default).worstCase
      ≤ ((calculateInvestmentProjection Pgen z0).yearlyData.getD 0 default).medianCase ∧
    ((calculateInvestmentProjection Pgen z0).yearlyData.getD 0 default).medianCase
      ≤ ((calculateInvestmentProjection Pgen z0).yearlyData.getD 0 default).bestCase) :=
  ⟨monotone_const, by norm_num [Pgen],
    bands_ordering Pgen z0 monotone_const 0 (by norm_num [Pgen])⟩

/-- C8 counterexample: with both contributions zero, year 1's `medianCase` is
2, not 0, so not every projection-related field vanishes. -/
theorem zero_contribution_counterexample :
    ((calculateInvestmentProjection Pzc z0).yearlyData.getD 0 default).medianCase = 2 ∧
    ((calculateInvestmentProjection Pzc z0).yearlyData.getD 0 default).medianCase ≠ 0 := by
  have h2 : ((calculateInvestmentProjection Pzc z0).yearlyData.getD 0 default).medianCase = 2 := by
    rw [yearlyData_getD Pzc z0 0 (by norm_num [Pzc])]
    exact bandsAt_zero_contrib Pzc z0 1 0.5 rfl rfl
  exact ⟨h2, by rw [h2]; norm_num⟩

/-- C8 (amended): with both contributions zero, every year's `projection` and
`investmentReturn` are 0, while `worstCase`, `bestCase` and `medianCase` all
equal 2 (each degenerate leg contributes the constant 1). -/
theorem zero_contribution_fields (P : ProjectionInput) (z : ℝ → ℝ)
    (hinv : P.investment = 0) (hlump : P.lumpSumInvestment = 0)
    (i : ℕ) (hi : i < P.projectionYears) :
    ((calculateInvestmentProjection P z).yearlyData.getD i default).projection = 0 ∧
    ((calculateInvestmentProjection P z).yearlyData.getD i default).investmentReturn = 0 ∧
    ((calculateInvestmentProjection P z).yearlyData.getD i default).worstCase = 2 ∧
    ((calculateInvestmentProjection P z).yearlyData.getD i default).bestCase = 2 ∧
    ((calculateInvestmentProjection P z).yearlyData.getD i default).medianCase = 2 := by
  rw [yearlyData_getD P z i hi]
  refine ⟨?_, ?_, ?_, ?_, ?_⟩
  · exact projectionValueAt_zero P hinv hlump _
  · show projectionValueAt P (i + 1)
        - (((i : ℕ) + 1 : ℕ) * P.investment + P.lumpSumInvestment) = 0
    rw [projectionValueAt_zero P hinv hlump, hinv, hlump]
    ring
  · rw [recordAt_worstCase]
    exact bandsAt_zero_contrib P z (i + 1) (minPOf P) hinv hlump
  · exact bandsAt_zero_contrib P z (i + 1) (maxPOf P) hinv hlump
  · exact bandsAt_zero_contrib P z (i + 1) 0.5 hinv hlump

/-- C8 witness: the amended zero-contribution facts at the concrete input
`Pzc`, year 1. -/
theorem zero_contribution_fields_witness :
    Pzc.investment = 0 ∧ Pzc.lumpSumInvestment = 0 ∧ 0 < Pzc.projectionYears ∧
    (((calculateInvestmentProjection Pzc z0).yearlyData.getD 0 default).projection = 0 ∧
    ((calculateInvestmentProjection Pzc z0).yearlyData.getD 0 default).investmentReturn = 0 ∧
    ((calculateInvestmentProjection Pzc z0).yearlyData.getD 0 default).worstCase = 2 ∧
    ((calculateInvestmentProjection Pzc z0).yearlyData.getD 0 default).bestCase = 2 ∧
    ((calculateInvestmentProjection Pzc z0).yearlyData.getD 0 default).medianCase = 2) :=
  ⟨rfl, rfl, by norm_num [Pzc],
    zero_contribution_fields Pzc z0 rfl rfl 0 (by norm_num [Pzc])⟩

/-- C9 counterexample: at a one-year horizon with annual contribution 1 and no
lump sum, the deterministic year-1 value is 1 but `worstCase` is 2 (the
zero-lump leg contributes the constant 1), so `worstCase` does not equal the
deterministic value. -/
theorem year_one_counterexample :
    ((calculateInvestmentProjection Pc9 z0).yearlyData.getD 0 default).projection = 1 ∧
    ((calculateInvestmentProjection Pc9 z0).yearlyData.getD 0 default).worstCase = 2 ∧
    ((calculateInvestmentProjection Pc9 z0).yearlyData.getD 0 default).worstCase
      ≠ ((calculateInvestmentProjection Pc9 z0).yearlyData.getD 0 default).projection := by
  have h := yearlyData_getD Pc9 z0 0 (by norm_num [Pc9])
  have hp : ((calculateInvestmentProjection Pc9 z0).yearlyData.getD 0 default).projection = 1 := by
    rw [h]
    show projectionValueAt Pc9 1 = 1
    show Pc9.lumpSumInvestment + Pc9.investment = 1
    norm_num [Pc9]
  have hw : ((calculateInvestmentProjection Pc9 z0).yearlyData.getD 0 default).worstCase = 2 := by
    rw [h, recordAt_worstCase, bandsAt_lump_zero Pc9 z0 1 (minPOf Pc9) rfl]
    rw [show Pc9.investment = (1:ℝ) from rfl]
    rw [ann_params_year_one (1:ℝ) Pc9.expectedReturn Pc9.volatility one_ne_zero]
    simp
    norm_num
  exact ⟨hp, hw, by rw [hp, hw]; norm_num⟩

/-- C9 (amended): year 1's deterministic value is
`lumpSumInvestment + annualInvestment` and its `totalReturn` is 0 for every
input; when additionally both contributions are strictly positive, year 1's
`worstCase` and `bestCase` equal that same deterministic value (with a zero
contribution the corresponding leg degenerates to the constant 1 instead). -/
theorem year_one_record (P : ProjectionInput) (z : ℝ → ℝ)
    (h1 : 1 ≤ P.projectionYears) :
    ((calculateInvestmentProjection P z).yearlyData.getD 0 default).projection
      = P.lumpSumInvestment + P.investment ∧
    ((calculateInvestmentProjection P z).yearlyData.getD 0 default).investmentReturn = 0 ∧
    (0 < P.investment → 0 < P.lumpSumInvestment →
      ((calculateInvestmentProjection P z).yearlyData.getD 0 default).worstCase
        = P.lumpSumInvestment + P.investment ∧
      ((calculateInvestmentProjection P z).yearlyData.getD 0 default).bestCase
        = P.lumpSumInvestment + P.investment) := by
  rw [yearlyData_getD P z 0 (by omega)]
  refine ⟨rfl, ?_, fun hinv hlump => ?_⟩
  · show projectionValueAt P 1 - (((0 : ℕ) + 1 : ℕ) * P.investment + P.lumpSumInvestment) = 0
    show P.lumpSumInvestment + P.investment
      - (((0 : ℕ) + 1 : ℕ) * P.investment + P.lumpSumInvestment) = 0
    push_cast
    ring
  · have hband : ∀ p, bandsAt P z 1 p = P.lumpSumInvestment + P.investment := by
      intro p
      unfold bandsAt totalQuantilesForYear
      rw [ann_params_year_one P.investment P.expectedReturn P.volatility (ne_of_gt hinv)]
      have h10 : (1:ℕ) - 1 = 0 := rfl
      rw [h10, lump_params_N_zero P.lumpSumInvestment P.expectedReturn P.volatility
        (ne_of_gt hlump)]
      simp [Real.exp_log hinv, Real.exp_log hlump]
      ring
    refine ⟨?_, hband _⟩
    rw [recordAt_worstCase]
    exact hband _

/-- C9 witness: the amended year-1 facts at the concrete input `Pgen` (both
contributions positive). -/
theorem year_one_record_witness :
    1 ≤ Pgen.projectionYears ∧ 0 < Pgen.investment ∧ 0 < Pgen.lumpSumInvestment ∧
    (((calculateInvestmentProjection Pgen z0).yearlyData.getD 0 default).projection
      = Pgen.lumpSumInvestment + Pgen.investment ∧
    ((calculateInvestmentProjection Pgen z0).yearlyData.getD 0 default).investmentReturn = 0 ∧
    ((calculateInvestmentProjection Pgen z0).yearlyData.getD 0 default).worstCase
      = Pgen.lumpSumInvestment + Pgen.investment ∧
    ((calculateInvestmentProjection Pgen z0).yearlyData.getD 0 default).bestCase
      = Pgen.lumpSumInvestment + Pgen.investment) :=
  ⟨by norm_num [Pgen], by norm_num [Pgen], by norm_num [Pgen],
    (year_one_record Pgen z0 (by norm_num [Pgen])).1,
    (year_one_record Pgen z0 (by norm_num [Pgen])).2.1,
    ((year_one_record Pgen z0 (by norm_num [Pgen])).2.2 (by norm_num [Pgen])
      (by norm_num [Pgen])).1,
    ((year_one_record Pgen z0 (by norm_num [Pgen])).2.2 (by norm_num [Pgen])
      (by norm_num [Pgen])).2⟩

/-- C10: when the lump sum is zero its leg evaluates to the constant 1, so
every band equals the annuity-only quantile plus exactly 1; symmetrically a
zero annual contribution makes the annuity leg the constant 1; and with both
contributions zero every band equals exactly 2. -/
theorem degenerate_leg_bands (P : ProjectionInput) (z : ℝ → ℝ) (i : ℕ)
    (hi : i < P.projectionYears) :
    (P.lumpSumInvestment = 0 →
      ((calculateInvestmentProjection P z).yearlyData.getD i default).worstCase
        = Real.exp ((getLognormalDistributionParams P.investment (i + 1) P.expectedReturn P.volatility).logMu
            + z (minPOf P) * (getLognormalDistributionParams P.investment (i + 1) P.expectedReturn P.volatility).logSigma) + 1 ∧
      ((calculateInvestmentProjection P z).yearlyData.getD i default).medianCase
        = Real.exp ((getLognormalDistributionParams P.investment (i + 1) P.expectedReturn P.volatility).logMu
            + z 0.5 * (getLognormalDistributionParams P.investment (i + 1) P.expectedReturn P.volatility).logSigma) + 1 ∧
      ((calculateInvestmentProjection P z).yearlyData.getD i default).bestCase
        = Real.exp ((getLognormalDistributionParams P.investment (i + 1) P.expectedReturn P.volatility).logMu
            + z (maxPOf P) * (getLognormalDistributionParams P.investment (i + 1) P.expectedReturn P.volatility).logSigma) + 1) ∧
    (P.investment = 0 →
      ((calculateInvestmentProjection P z).yearlyData.getD i default).worstCase
        = 1 + Real.exp ((getLumpSumDistributionParams P.lumpSumInvestment i P.expectedReturn P.volatility).logMu
            + z (minPOf P) * (getLumpSumDistributionParams P.lumpSumInvestment i P.expectedReturn P.volatility).logSigma) ∧
      ((calculateInvestmentProjection P z).yearlyData.getD i default).medianCase
        = 1 + Real.exp ((getLumpSumDistributionParams P.lumpSumInvestment i P.expectedReturn P.volatility).logMu
            + z 0.5 * (getLumpSumDistributionParams P.lumpSumInvestment i P.expectedReturn P.volatility).logSigma) ∧
      ((calculateInvestmentProjection P z).yearlyData.getD i default).bestCase
        = 1 + Real.exp ((getLumpSumDistributionParams P.lumpSumInvestment i P.expectedReturn P.volatility).logMu
            + z (maxPOf P) * (getLumpSumDistributionParams P.lumpSumInvestment i P.expectedReturn P.volatility).logSigma)) ∧
    (P.lumpSumInvestment = 0 → P.investment = 0 →
      ((calculateInvestmentProjection P z).yearlyData.getD i default).worstCase = 2 ∧
      ((calculateInvestmentProjection P z).yearlyData.getD i default).medianCase = 2 ∧
      ((calculateInvestmentProjection P z).yearlyData.getD i default).bestCase = 2) := by
  rw [yearlyData_getD P z i hi]
  refine ⟨fun hlump => ⟨?_, ?_, ?_⟩, fun hinv => ⟨?_, ?_, ?_⟩,
    fun hlump hinv => ⟨?_, ?_, ?_⟩⟩
  · rw [recordAt_worstCase]
    exact bandsAt_lump_zero P z (i + 1) (minPOf P) hlump
  · exact bandsAt_lump_zero P z (i + 1) 0.5 hlump
  · exact bandsAt_lump_zero P z (i + 1) (maxPOf P) hlump
  · rw [recordAt_worstCase]
    exact bandsAt_inv_zero P z (i + 1) (minPOf P) hinv
  · exact bandsAt_inv_zero P z (i + 1) 0.5 hinv
  · exact bandsAt_inv_zero P z (i + 1) (maxPOf P) hinv
  · rw [recordAt_worstCase]
    exact bandsAt_zero_contrib P z (i + 1) (minPOf P) hinv hlump
  · exact bandsAt_zero_contrib P z (i + 1) 0.5 hinv hlump
  · exact bandsAt_zero_contrib P z (i + 1) (maxPOf P) hinv hlump

/-- C10 witness: the both-legs-degenerate clause at the concrete input `Pzc`,
year 1. -/
theorem degenerate_leg_bands_witness :
    0 < Pzc.projectionYears ∧ Pzc.lumpSumInvestment = 0 ∧ Pzc.investment = 0 ∧
    (((calculateInvestmentProjection Pzc z0).yearlyData.getD 0 default).worstCase = 2 ∧
    ((calculateInvestmentProjection Pzc z0).yearlyData.getD 0 default).medianCase = 2 ∧
    ((calculateInvestmentProjection Pzc z0).yearlyData.getD 0 default).bestCase = 2) :=
  ⟨by norm_num [Pzc], rfl, rfl,
    (degenerate_leg_bands Pzc z0 0 (by norm_num [Pzc])).2.2 rfl rfl⟩

/-- A position of the portfolio (`Portfolio.tsx`); `expectedReturn` is on the
0–100 percent scale. -/
structure Position where
  symbol : String
  assetClass : String
  expectedReturn : ℝ
  investmentAmount : ℝ

/-- Result triple of `calculatePortfolioMetrics`. -/
structure PortfolioMetrics where
  investment : ℝ
  expectedReturn : ℝ
  volatility : ℝ

/-- Embedding of the source's `calculatePortfolioMetrics(positions)`:
`investment` and `weightedReturn` are `reduce` folds over the positions,
`expectedReturn` guards against an empty total, and volatility is the fixed
constant `0.15`. -/
noncomputable def calculatePortfolioMetrics (positions : List Position) :
    PortfolioMetrics :=
  { investment := positions.foldl (fun acc pos => acc + pos.investmentAmount) 0
    expectedReturn :=
      if positions.foldl (fun acc pos => acc + pos.investmentAmount) 0 = 0 then 0
      else (positions.foldl
              (fun acc pos => acc + pos.investmentAmount * (pos.expectedReturn / 100)) 0) /
           positions.foldl (fun acc pos => acc + pos.investmentAmount) 0
    volatility := 0.15 }

lemma foldl_add_eq (f : Position → ℝ) :
    ∀ (l : List Position) (a : ℝ),
      l.foldl (fun acc pos => acc + f pos) a = a + (l.map f).sum
  | [], a => by simp
  | pos :: l, a => by
      simp only [List.foldl_cons, List.map_cons, List.sum_cons]
      rw [foldl_add_eq f l, add_assoc]

/-- C1: the source's annuity moment computation coincides with the
specification's formulas: annuity mean `E = C·N` for `mu = 0`, otherwise
`C·((1+mu)^N − 1)/mu`; second moment `C²·(S + 2T)` with
`S = (A^N − 1)/(A − 1)`, `T = Σ_{p=1}^{N−1} (1+mu)^p·(A^{N−p} − 1)/(A − 1)`,
`A = (1+mu)² + sigma²`; variance clamped at 0; lognormal parameters
`logSigma = sqrt(ln(1 + V/E²))`, `logMu = ln(E) − 0.5·ln(1 + V/E²)`; and for
`N = 0` or `C = 0`, `logMu = ln(C or 1)` with `logSigma = 0`. -/
theorem annuity_moments_match_spec (C : ℝ) (N : ℕ) (mu sigma : ℝ) :
    getLognormalDistributionParams C N mu sigma = annuitySpecParams C N mu sigma := by
  have hT : annT N mu sigma
      = ∑ p in Finset.range (N - 1), (1 + mu) ^ (p + 1) *
          ((((1 + mu) ^ 2 + sigma ^ 2) ^ (N - (p + 1)) - 1) /
            (((1 + mu) ^ 2 + sigma ^ 2) - 1)) := by
    unfold annT
    rw [Finset.sum_Ico_eq_sum_range]
    exact Finset.sum_congr rfl fun i _ => by rw [add_comm 1 i]
  unfold getLognormalDistributionParams annuitySpecParams
  by_cases h : N = 0 ∨ C = 0
  · rw [if_pos h, if_pos h]
  · rw [if_neg h, if_neg h]
    simp only [annV, annSecondMoment, annE, annS, hT]

/-- C5 counterexample: the degenerate empty portfolio does not yield all-zero
metrics: its volatility is the fixed constant 0.15, not 0. -/
theorem empty_portfolio_not_all_zero :
    (calculatePortfolioMetrics []).volatility ≠ 0 := by
  unfold calculatePortfolioMetrics
  norm_num

/-- C5 (amended): the aggregator returns the sum of the position amounts, the
weighted expected return (0 when the total is 0) and the fixed volatility
0.15; the two-position portfolio {100000 @ 4%, 100000 @ 8%} yields
investment 200000, expectedReturn 0.06 and volatility 0.15; and the empty
portfolio yields investment 0 and expectedReturn 0 but volatility 0.15. -/
theorem portfolio_metrics_spec (positions : List Position) :
    (calculatePortfolioMetrics positions).investment
        = (positions.map Position.investmentAmount).sum ∧
    ((positions.map Position.investmentAmount).sum = 0 →
      (calculatePortfolioMetrics positions).expectedReturn = 0) ∧
    ((positions.map Position.investmentAmount).sum ≠ 0 →
      (calculatePortfolioMetrics positions).expectedReturn
        = (positions.map
            (fun pos => pos.investmentAmount * (pos.expectedReturn / 100))).sum /
          (positions.map Position.investmentAmount).sum) ∧
    (calculatePortfolioMetrics positions).volatility = 0.15 ∧
    calculatePortfolioMetrics
        [⟨"KKP GB", "Fixed Income", 4, 100000⟩,
         ⟨"KKP GNP-H-SSF", "Global Equity", 8, 100000⟩]
      = ⟨200000, 0.06, 0.15⟩ ∧
    (calculatePortfolioMetrics []).investment = 0 ∧
    (calculatePortfolioMetrics []).expectedReturn = 0 ∧
    (calculatePortfolioMetrics []).volatility = 0.15 := by
  refine ⟨?_, ?_, ?_, ?_, ?_, ?_, ?_, ?_⟩
  · simp [calculatePortfolioMetrics, foldl_add_eq]
  · intro h; simp [calculatePortfolioMetrics, foldl_add_eq, h]
  · intro h; simp [calculatePortfolioMetrics, foldl_add_eq, h]
  · rfl
  · simp only [calculatePortfolioMetrics, List.foldl_cons, List.foldl_nil,
      PortfolioMetrics.mk.injEq]
    norm_num
  · simp [calculatePortfolioMetrics]
  · simp [calculatePortfolioMetrics]
  · rfl

/-- C5 witness: the amended aggregator facts instantiated at the empty
portfolio, the hypotheses of the inner implications discharged there. -/
theorem portfolio_metrics_spec_witness :
    (calculatePortfolioMetrics []).investment
        = (([] : List Position).map Position.investmentAmount).sum ∧
    (calculatePortfolioMetrics []).expectedReturn = 0 ∧
    (calculatePortfolioMetrics []).volatility = 0.15 :=
  ⟨(portfolio_metrics_spec []).1,
   (portfolio_metrics_spec []).2.1 (by simp),
   (portfolio_metrics_spec []).2.2.2.1⟩

end Athena
